import Mathlib

/-!
Verification of the task-management server (`TaskManagementServer`) and its
client-side task query engine.

The server keeps tasks and users in insertion-ordered maps (`Map` objects),
allocates integer ids from per-entity counters, and exposes JWT-guarded CRUD
routes.  Maps are embedded as insertion-ordered association lists, JS `Map.set`
as replace-in-place-or-append, timestamps as naturals, and request bodies as
records of `Option` fields (a `none` field is an absent JSON key, mirroring
JS `undefined`).  External crypto helpers (`security-config.js` is not part of
the sources) are abstracted as a context of function parameters.
-/

namespace TaskMgmt

/-- A task record, with exactly the fields of the object literal built by
`POST /api/tasks`.  `createdAt`/`updatedAt` timestamps are embedded as
naturals (milliseconds), which the ISO-string round-trip used by the code
orders identically. -/
structure Task where
  id : Nat
  userId : Nat
  title : String
  description : String
  priority : String
  dueDate : Option String
  completed : Bool
  createdAt : Nat
  updatedAt : Nat
deriving DecidableEq, Repr

/-- A user record as created by `POST /auth/register` (`lastLoginAt` is absent
until the first login). -/
structure User where
  id : Nat
  username : String
  email : String
  password : String
  isActive : Bool
  createdAt : Nat
  updatedAt : Nat
  lastLoginAt : Option Nat
deriving DecidableEq, Repr

/-- The server's in-memory storage plus the two id counters
(`this.storage.tasks`, `this.storage.users`, `this.nextTaskId`,
`this.nextUserId`).  The JS `Map`s are insertion-ordered, so they are embedded
as association lists in insertion order with the key stored in the record. -/
structure ServerState where
  tasks : List Task
  users : List User
  nextTaskId : Nat
  nextUserId : Nat
deriving DecidableEq, Repr

/-- `storage.tasks.set(t.id, t)`: replace in place when the key is present,
append otherwise (JS `Map` insertion-order semantics). -/
def taskSet (m : List Task) (t : Task) : List Task :=
  if m.any (fun x => x.id == t.id) then
    m.map (fun x => if x.id == t.id then t else x)
  else m ++ [t]

/-- `storage.tasks.get(k)` for an integer key `k` (the result of `parseInt`,
which may be negative). -/
def taskGet (m : List Task) (k : Int) : Option Task :=
  m.find? (fun t => (t.id : Int) == k)

/-- `storage.tasks.delete(k)`. -/
def taskDelete (m : List Task) (k : Nat) : List Task :=
  m.filter (fun t => t.id != k)

/-- `storage.users.set(u.id, u)`. -/
def userSet (m : List User) (u : User) : List User :=
  if m.any (fun x => x.id == u.id) then
    m.map (fun x => if x.id == u.id then u else x)
  else m ++ [u]

/-! ### JS `parseInt` -/

/-- Whitespace skipped by JS `parseInt`. -/
def isWs (c : Char) : Bool :=
  c == ' ' || c == '\t' || c == '\n' || c == '\r'

/-- Numeric value of a decimal digit character. -/
def digitVal (c : Char) : Nat := c.toNat - 48

/-- Hexadecimal digit test. -/
def isHexDigit (c : Char) : Bool :=
  c.isDigit || ('a' ≤ c && c ≤ 'f') || ('A' ≤ c && c ≤ 'F')

/-- Numeric value of a hexadecimal digit character. -/
def hexVal (c : Char) : Nat :=
  if c.isDigit then c.toNat - 48
  else if 'a' ≤ c && c ≤ 'f' then c.toNat - 87
  else c.toNat - 55

/-- Fold the longest prefix of digits (for the given digit test) into a
number; `none` when that prefix is empty (JS `NaN`). -/
def parseDigits (isD : Char → Bool) (val : Char → Nat) (base : Nat)
    (cs : List Char) : Option Nat :=
  let ds := cs.takeWhile isD
  if ds.isEmpty then none
  else some (ds.foldl (fun acc c => acc * base + val c) 0)

/-- The unsigned part of JS `parseInt`: a `0x`/`0X` hexadecimal literal, or
otherwise the longest decimal-digit prefix. -/
def parseUnsigned (cs : List Char) : Option Nat :=
  match cs with
  | '0' :: x :: rest =>
    if x == 'x' || x == 'X' then parseDigits isHexDigit hexVal 16 rest
    else parseDigits Char.isDigit digitVal 10 cs
  | _ => parseDigits Char.isDigit digitVal 10 cs

/-- JS `parseInt(s)` with no radix argument: skip leading whitespace, read an
optional sign, then the unsigned part; `none` is `NaN`. -/
def parseIntCore (cs : List Char) : Option Int :=
  match cs.dropWhile isWs with
  | '-' :: rest => (parseUnsigned rest).map (fun n => -(n : Int))
  | '+' :: rest => (parseUnsigned rest).map (fun n => (n : Int))
  | cs1 => (parseUnsigned cs1).map (fun n => (n : Int))

/-- `parseInt(req.params.id)`. -/
def parseIntJS (s : String) : Option Int :=
  parseIntCore s.data

/-- JS `String.prototype.trim` (on the whitespace characters of `isWs`),
written on character lists so that it evaluates by kernel reduction. -/
def trimJS (s : String) : String :=
  String.mk (((s.data.dropWhile isWs).reverse.dropWhile isWs).reverse)

/-- JS `String.prototype.toLowerCase`, written on character lists so that it
evaluates by kernel reduction. -/
def toLowerJS (s : String) : String :=
  String.mk (s.data.map Char.toLower)

/-! ### GET /api/tasks -/

/-- The comparator `(a, b) => new Date(b.createdAt) - new Date(a.createdAt)`:
`a` may precede `b` exactly when the comparator is `≤ 0`. -/
def createdAtDesc (a b : Task) : Prop := b.createdAt ≤ a.createdAt

instance : DecidableRel createdAtDesc := fun a b => Nat.decLe b.createdAt a.createdAt

instance : IsTotal Task createdAtDesc := ⟨fun a b => Nat.le_total b.createdAt a.createdAt⟩

instance : IsTrans Task createdAtDesc := ⟨fun _ _ _ h1 h2 => Nat.le_trans h2 h1⟩

/-- Handler of `GET /api/tasks`: the stored tasks restricted to the
authenticated user, sorted by `createdAt` descending with the engine's stable
sort (`Array.prototype.sort` is stable). -/
def getTasks (s : ServerState) (userId : Nat) : List Task :=
  List.insertionSort createdAtDesc (s.tasks.filter (fun t => t.userId == userId))

/-! ### Authentication middleware -/

/-- The JWT payload `{ userId, username }` attached as `req.user`. -/
structure Claims where
  userId : Nat
  username : String
deriving DecidableEq, Repr

/-- JS `String.prototype.split` with a one-character separator, written on
character lists so that it evaluates by kernel reduction. -/
def splitOnChar (sep : Char) : List Char → List (List Char)
  | [] => [[]]
  | c :: rest =>
    if c == sep then [] :: splitOnChar sep rest
    else
      match splitOnChar sep rest with
      | [] => [[c]]
      | h :: t => (c :: h) :: t

/-- `authHeader && authHeader.split(" ")[1]` followed by the `!token` falsy
check: the token is the second space-separated word of the `Authorization`
header, and a missing header, missing second word, or empty second word all
count as no token. -/
def extractToken (authHeader : Option String) : Option String :=
  match authHeader with
  | none => none
  | some h =>
    match ((splitOnChar ' ' h.data).map String.mk).get? 1 with
    | none => none
    | some t => if t == "" then none else some t

/-- Outcome of running a guarded route: either an error response
(`res.status(s).json({ error })`) produced by the middleware, or the result of
the downstream handler. -/
inductive MwResult (α : Type) where
  | err (status : Nat) (error : String)
  | ok (r : α)
deriving DecidableEq, Repr

/-- `authenticateToken`: 401 when no token is present, 403 when
`SecurityUtils.verifyJWT` throws (embedded as `verify` returning `none`), and
otherwise the decoded claims.  `verify` abstracts the JWT check, whose
implementation lives in `security-config.js`. -/
def authenticateToken (verify : String → Option Claims) (authHeader : Option String) :
    MwResult Claims :=
  match extractToken authHeader with
  | none => .err 401 "Access token required"
  | some tok =>
    match verify tok with
    | none => .err 403 "Invalid or expired token"
    | some c => .ok c

/-- A guarded route: the downstream handler runs only when the middleware
calls `next()`, and then receives the decoded identity from `req.user`. -/
def runProtected {α : Type} (verify : String → Option Claims)
    (authHeader : Option String) (handler : Claims → α) : MwResult α :=
  match authenticateToken verify authHeader with
  | .err s e => .err s e
  | .ok c => .ok (handler c)

/-! ### Auth routes -/

/-- External helpers from `security-config.js` (not among the sources), kept
abstract: email validation, password-strength validation, bcrypt hashing and
verification, and JWT issuance (payload `userId`/`username`). -/
structure Ctx where
  isValidEmail : String → Bool
  passwordOk : String → Bool
  hashPassword : String → String
  verifyPassword : String → String → Bool
  issueToken : Nat → String → String

/-- Response of the `/auth` routes: status, error message, created/logged-in
user id, and issued token when any. -/
structure AuthResp where
  status : Nat
  error : Option String
  userId : Option Nat
  token : Option String
deriving DecidableEq, Repr

/-- Handler of `POST /auth/register`: required-field check (`!username` is
truthy for an absent or empty field), email-format and password-strength
validation, duplicate check over `email` or `username`, then user creation
from `nextUserId` and token issuance. -/
def register (c : Ctx) (s : ServerState) (username email password : Option String)
    (now : Nat) : AuthResp × ServerState :=
  match username, email, password with
  | some u, some e, some p =>
    if u == "" || e == "" || p == "" then
      (⟨400, some "Missing required fields", none, none⟩, s)
    else if !(c.isValidEmail e) then
      (⟨400, some "Invalid email format", none, none⟩, s)
    else if !(c.passwordOk p) then
      (⟨400, some "Password does not meet requirements", none, none⟩, s)
    else if s.users.any (fun x => x.email == e || x.username == u) then
      (⟨409, some "User already exists", none, none⟩, s)
    else
      let user : User :=
        { id := s.nextUserId, username := u, email := e,
          password := c.hashPassword p, isActive := true,
          createdAt := now, updatedAt := now, lastLoginAt := none }
      (⟨201, none, some user.id, some (c.issueToken user.id u)⟩,
       { s with users := userSet s.users user, nextUserId := s.nextUserId + 1 })
  | _, _, _ => (⟨400, some "Missing required fields", none, none⟩, s)

/-- Handler of `POST /auth/login`: required-field check, lookup of the first
user with the given email, password verification, active-flag check, then
token issuance and `lastLoginAt` update. -/
def login (c : Ctx) (s : ServerState) (email password : Option String)
    (now : Nat) : AuthResp × ServerState :=
  match email, password with
  | some e, some p =>
    if e == "" || p == "" then
      (⟨400, some "Email and password are required", none, none⟩, s)
    else
      match s.users.find? (fun u => u.email == e) with
      | none => (⟨401, some "Invalid credentials", none, none⟩, s)
      | some u =>
        if !(c.verifyPassword p u.password) then
          (⟨401, some "Invalid credentials", none, none⟩, s)
        else if !u.isActive then
          (⟨403, some "Account is deactivated", none, none⟩, s)
        else
          (⟨200, none, some u.id, some (c.issueToken u.id u.username)⟩,
           { s with users := userSet s.users { u with lastLoginAt := some now } })
  | _, _ => (⟨400, some "Email and password are required", none, none⟩, s)

/-! ### Task CRUD routes -/

/-- Body of `POST /api/tasks` (`none` fields are absent JSON keys). -/
structure CreateBody where
  title : Option String
  description : Option String
  priority : Option String
  dueDate : Option String
deriving DecidableEq, Repr

/-- Response of the single-task routes. -/
structure TaskResp where
  status : Nat
  error : Option String
  task : Option Task
deriving DecidableEq, Repr

/-- Handler of `POST /api/tasks`: reject a missing or whitespace-only title
(`!title || title.trim().length === 0`), otherwise store a task with the next
id, the requester as owner, the trimmed title, a trimmed or empty description
(`description ? description.trim() : ""`), `priority || "medium"`,
`dueDate || null`, and `completed: false`. -/
def createTask (s : ServerState) (userId : Nat) (b : CreateBody) (now : Nat) :
    TaskResp × ServerState :=
  if (match b.title with
      | none => true
      | some t => t == "" || trimJS t == "") then
    (⟨400, some "Task title is required", none⟩, s)
  else
    let task : Task :=
      { id := s.nextTaskId, userId := userId,
        title := trimJS (b.title.getD ""),
        description := match b.description with
          | none => ""
          | some "" => ""
          | some d => trimJS d,
        priority := match b.priority with
          | none => "medium"
          | some "" => "medium"
          | some p => p,
        dueDate := match b.dueDate with
          | none => none
          | some "" => none
          | some d => some d,
        completed := false, createdAt := now, updatedAt := now }
    (⟨201, none, some task⟩,
     { s with tasks := taskSet s.tasks task, nextTaskId := s.nextTaskId + 1 })

/-- The JSON serialization of a stored task (the exact keys of the object
literal built by `POST /api/tasks`, which is also what `res.json` sends). -/
def taskJson (t : Task) : List (String × String) :=
  [("id", toString t.id), ("userId", toString t.userId), ("title", t.title),
   ("description", t.description), ("priority", t.priority),
   ("dueDate", t.dueDate.getD "null"),
   ("completed", toString t.completed),
   ("createdAt", toString t.createdAt), ("updatedAt", toString t.updatedAt)]

/-- `parseInt(req.params.id)` followed by `storage.tasks.get(taskId)`
(a `NaN` key is found under no entry). -/
def lookupTask (s : ServerState) (idStr : String) : Option Task :=
  match parseIntJS idStr with
  | none => none
  | some k => taskGet s.tasks k

/-- Handler of `GET /api/tasks/:id`: 404 when the lookup misses, 403 when the
task belongs to another user, otherwise the task. -/
def getTaskById (s : ServerState) (userId : Nat) (idStr : String) : TaskResp :=
  match lookupTask s idStr with
  | none => ⟨404, some "Task not found", none⟩
  | some t =>
    if t.userId != userId then ⟨403, some "Access denied", none⟩
    else ⟨200, none, some t⟩

/-- Body of `PUT /api/tasks/:id`: any subset of task fields may appear
(`none` fields are absent keys; the spread `{...task, ...req.body}` takes the
body's value for every present key). -/
structure TaskPatch where
  id : Option Nat
  userId : Option Nat
  title : Option String
  description : Option String
  priority : Option String
  dueDate : Option (Option String)
  completed : Option Bool
  createdAt : Option Nat
  updatedAt : Option Nat
deriving DecidableEq, Repr

/-- The update object `{...task, ...req.body, id: taskId, userId: userId,
updatedAt: now}`.  When the lookup succeeded the parsed `taskId` equals
`t.id` (the `Map` key always equals the record's `id`), so the forced `id`
is written as `t.id`; `uid` is the requester, and the body's `id`, `userId`
and `updatedAt` keys are overridden. -/
def mergeTask (t : Task) (p : TaskPatch) (uid now : Nat) : Task :=
  { id := t.id, userId := uid,
    title := p.title.getD t.title,
    description := p.description.getD t.description,
    priority := p.priority.getD t.priority,
    dueDate := p.dueDate.getD t.dueDate,
    completed := p.completed.getD t.completed,
    createdAt := p.createdAt.getD t.createdAt,
    updatedAt := now }

/-- Handler of `PUT /api/tasks/:id`: 404 when the lookup misses, 403 when the
task belongs to another user, otherwise store and return the merged task. -/
def putTask (s : ServerState) (userId : Nat) (idStr : String) (p : TaskPatch)
    (now : Nat) : TaskResp × ServerState :=
  match lookupTask s idStr with
  | none => (⟨404, some "Task not found", none⟩, s)
  | some t =>
    if t.userId != userId then (⟨403, some "Access denied", none⟩, s)
    else
      let updated := mergeTask t p userId now
      (⟨200, none, some updated⟩, { s with tasks := taskSet s.tasks updated })

/-- Response of `DELETE /api/tasks/:id` (204 carries no body). -/
structure DeleteResp where
  status : Nat
  error : Option String
deriving DecidableEq, Repr

/-- Handler of `DELETE /api/tasks/:id`: 404 when the lookup misses, 403 when
the task belongs to another user, otherwise remove the task and answer 204. -/
def deleteTask (s : ServerState) (userId : Nat) (idStr : String) :
    DeleteResp × ServerState :=
  match lookupTask s idStr with
  | none => (⟨404, some "Task not found"⟩, s)
  | some t =>
    if t.userId != userId then (⟨403, some "Access denied"⟩, s)
    else (⟨204, none⟩, { s with tasks := taskDelete s.tasks t.id })

/-! ### Task query engine (client-side controller/model) -/

/-- Modelled from the spec: the task record over which the Task Query Engine
operates; the engine's implementation (the task controller/model called from
`TaskView.js`) is not among the sources, so the record follows the spec's
data model: id, owning user id, title, description, priority enum, category
enum, optional due date, completion flag, tags, creation timestamp. -/
structure QTask where
  id : Nat
  userId : Nat
  title : String
  description : String
  priority : String
  category : String
  dueDate : Option Nat
  completed : Bool
  tags : List String
  createdAt : Nat
deriving DecidableEq, Repr

/-- Modelled from the spec: the filter parameters of the Task Query Engine
(status, priority, category, free-text search, sort key, sort direction); an
unset field is `none`. -/
structure QueryFilter where
  status : Option String
  priority : Option String
  category : Option String
  search : Option String
  sortBy : Option String
  sortOrder : Option String
deriving DecidableEq, Repr

/-- The priority enum. -/
def priorities : List String := ["low", "medium", "high", "urgent"]

/-- The category enum. -/
def categories : List String :=
  ["work", "personal", "study", "health", "finance", "shopping", "other"]

/-- `as` is a prefix of `bs` (character lists). -/
def prefixOfList : List Char → List Char → Bool
  | [], _ => true
  | _ :: _, [] => false
  | a :: as, b :: bs => a == b && prefixOfList as bs

/-- `needle` occurs as a contiguous sublist of the second list. -/
def containsList (needle : List Char) : List Char → Bool
  | [] => needle.isEmpty
  | c :: rest => prefixOfList needle (c :: rest) || containsList needle rest

/-- JS `String.prototype.includes`: substring containment. -/
def containsSub (hay needle : String) : Bool :=
  containsList needle.data hay.data

/-- Modelled from the spec: the status filter — `pending` keeps incomplete
tasks, `completed` keeps completed ones, an unset field imposes no constraint
and an unknown value is ignored (pass-through). -/
def matchesStatus (t : QTask) : Option String → Bool
  | none => true
  | some v =>
    if v == "pending" then !t.completed
    else if v == "completed" then t.completed
    else true

/-- Modelled from the spec: the priority filter — a known enum value must
match the task's priority; unset or unknown values impose no constraint. -/
def matchesPriority (t : QTask) : Option String → Bool
  | none => true
  | some v => if priorities.contains v then t.priority == v else true

/-- Modelled from the spec: the category filter — a known enum value must
match the task's category; unset or unknown values impose no constraint. -/
def matchesCategory (t : QTask) : Option String → Bool
  | none => true
  | some v => if categories.contains v then t.category == v else true

/-- Modelled from the spec: the free-text search — a case-insensitive
substring match against title or description. -/
def matchesSearch (t : QTask) : Option String → Bool
  | none => true
  | some q =>
    containsSub (toLowerJS t.title) (toLowerJS q) ||
      containsSub (toLowerJS t.description) (toLowerJS q)

/-- Rank of a priority for the `priority` sort key (enum order). -/
def priorityRank (p : String) : Nat :=
  if p == "low" then 1
  else if p == "medium" then 2
  else if p == "high" then 3
  else if p == "urgent" then 4
  else 0

/-- Modelled from the spec: the sort-key value of a task for the keys
`createdAt`/`dueDate`/`priority`/`title` (any other key falls back to
`createdAt`, the default).  Numeric keys embed on the left of the
lexicographic sum order, the textual `title` key on the right; for any fixed
key only one side ever occurs. -/
def keyVal (key : String) (t : QTask) : Nat ⊕ₗ String :=
  if key == "dueDate" then toLex (Sum.inl (t.dueDate.getD 0))
  else if key == "priority" then toLex (Sum.inl (priorityRank t.priority))
  else if key == "title" then toLex (Sum.inr t.title)
  else toLex (Sum.inl t.createdAt)

/-- Modelled from the spec: the engine's ordering — strictly smaller sort key
in the requested direction (`desc` flips the key comparison, and only that:
not the tie-break), ties broken by ascending id. -/
def taskLe (key dir : String) (a b : QTask) : Prop :=
  (if dir == "desc" then keyVal key b < keyVal key a
   else keyVal key a < keyVal key b) ∨
  (keyVal key a = keyVal key b ∧ a.id ≤ b.id)

instance (key dir : String) : DecidableRel (taskLe key dir) := fun a b => by
  unfold taskLe
  infer_instance

instance (key dir : String) : IsTotal QTask (taskLe key dir) := by
  constructor
  intro a b
  rcases lt_trichotomy (keyVal key a) (keyVal key b) with h | h | h
  · by_cases hdir : (dir == "desc") = true
    · exact Or.inr (Or.inl (by simp [taskLe, hdir, h]))
    · exact Or.inl (Or.inl (by simp [taskLe, hdir, h]))
  · rcases Nat.le_total a.id b.id with hid | hid
    · exact Or.inl (Or.inr ⟨h, hid⟩)
    · exact Or.inr (Or.inr ⟨h.symm, hid⟩)
  · by_cases hdir : (dir == "desc") = true
    · exact Or.inl (Or.inl (by simp [taskLe, hdir, h]))
    · exact Or.inr (Or.inl (by simp [taskLe, hdir, h]))

instance (key dir : String) : IsTrans QTask (taskLe key dir) := by
  constructor
  intro a b c hab hbc
  unfold taskLe at hab hbc ⊢
  by_cases hdir : (dir == "desc") = true
  · rw [if_pos hdir] at hab hbc ⊢
    rcases hab with h1 | ⟨he1, hi1⟩ <;> rcases hbc with h2 | ⟨he2, hi2⟩
    · exact Or.inl (lt_trans h2 h1)
    · exact Or.inl (lt_of_le_of_lt (le_of_eq he2.symm) h1)
    · exact Or.inl (lt_of_lt_of_le h2 (le_of_eq he1.symm))
    · exact Or.inr ⟨he1.trans he2, le_trans hi1 hi2⟩
  · rw [if_neg hdir] at hab hbc ⊢
    rcases hab with h1 | ⟨he1, hi1⟩ <;> rcases hbc with h2 | ⟨he2, hi2⟩
    · exact Or.inl (lt_trans h1 h2)
    · exact Or.inl (lt_of_lt_of_le h1 (le_of_eq he2))
    · exact Or.inl (lt_of_le_of_lt (le_of_eq he1) h2)
    · exact Or.inr ⟨he1.trans he2, le_trans hi1 hi2⟩

/-- Modelled from the spec: `query(tasks, filter)` — the ownership constraint
first and unconditionally, then the four filters ANDed, then the stable sort
(sort key defaulting to `createdAt`, direction to ascending). -/
def query (uid : Nat) (f : QueryFilter) (tasks : List QTask) : List QTask :=
  List.insertionSort (taskLe (f.sortBy.getD "createdAt") (f.sortOrder.getD "asc"))
    ((tasks.filter (fun t => t.userId == uid)).filter
      (fun t => matchesStatus t f.status && matchesPriority t f.priority &&
        matchesCategory t f.category && matchesSearch t f.search))

/-! ### Request traces (for id allocation) -/

/-- One request to a state-mutating route, with the authenticated user id
(for the `/api` routes) and the request body. -/
inductive Op where
  | opRegister (username email password : Option String) (now : Nat)
  | opLogin (email password : Option String) (now : Nat)
  | opCreateTask (userId : Nat) (b : CreateBody) (now : Nat)
  | opPutTask (userId : Nat) (idStr : String) (p : TaskPatch) (now : Nat)
  | opDeleteTask (userId : Nat) (idStr : String)

/-- The server state after serving one request. -/
def step (c : Ctx) (s : ServerState) : Op → ServerState
  | .opRegister u e p now => (register c s u e p now).2
  | .opLogin e p now => (login c s e p now).2
  | .opCreateTask uid b now => (createTask s uid b now).2
  | .opPutTask uid idStr p now => (putTask s uid idStr p now).2
  | .opDeleteTask uid idStr => (deleteTask s uid idStr).2

/-- The task id assigned by a request, when it creates a task. -/
def taskIdAssigned (s : ServerState) : Op → Option Nat
  | .opCreateTask uid b now => ((createTask s uid b now).1.task).map Task.id
  | _ => none

/-- The user id assigned by a request, when it registers a user. -/
def userIdAssigned (c : Ctx) (s : ServerState) : Op → Option Nat
  | .opRegister u e p now => (register c s u e p now).1.userId
  | _ => none

/-- All task ids assigned over a run, in request order. -/
def runTaskIds (c : Ctx) : ServerState → List Op → List Nat
  | _, [] => []
  | s, op :: ops => (taskIdAssigned s op).toList ++ runTaskIds c (step c s op) ops

/-- All user ids assigned over a run, in request order. -/
def runUserIds (c : Ctx) : ServerState → List Op → List Nat
  | _, [] => []
  | s, op :: ops => (userIdAssigned c s op).toList ++ runUserIds c (step c s op) ops

/-- C1: every task returned by an authenticated `GET /api/tasks` request made
by user `userId` is owned by `userId`; a task owned by another user never
appears (the handler takes no other parameters). -/
theorem getTasks_owner_only (s : ServerState) (userId : Nat) (t : Task)
    (ht : t ∈ getTasks s userId) : t.userId = userId := by
  have hmem : t ∈ s.tasks.filter (fun t => t.userId == userId) := by
    simpa [getTasks] using
      ((List.perm_insertionSort createdAtDesc _).mem_iff).mp ht
  have := List.of_mem_filter hmem
  simpa using this

/-- Concrete check of `getTasks_owner_only`: a two-user store where user 1's
listing contains their task. -/
theorem getTasks_owner_only_witness :
    (⟨3, 1, "Buy milk", "", "low", none, false, 5, 5⟩ : Task) ∈
      getTasks ⟨[⟨3, 1, "Buy milk", "", "low", none, false, 5, 5⟩,
                 ⟨4, 2, "Other", "", "medium", none, false, 6, 6⟩], [], 5, 3⟩ 1 ∧
    (⟨3, 1, "Buy milk", "", "low", none, false, 5, 5⟩ : Task).userId = 1 :=
  And.intro (by decide)
    (getTasks_owner_only
      ⟨[⟨3, 1, "Buy milk", "", "low", none, false, 5, 5⟩,
        ⟨4, 2, "Other", "", "medium", none, false, 6, 6⟩], [], 5, 3⟩ 1
      ⟨3, 1, "Buy milk", "", "low", none, false, 5, 5⟩ (by decide))

/-- C5: on a protected route, a request whose Authorization header carries no
bearer token is answered 401 Unauthorized and a request whose token fails
verification is answered 403 Forbidden, in both cases with a response that
does not depend on the downstream handler (so the handler never runs); when
verification succeeds, the handler runs on exactly the decoded identity. -/
theorem auth_middleware_gate {α : Type} (verify : String → Option Claims)
    (h : Option String) (f : Claims → α) :
    (extractToken h = none →
      runProtected verify h f = .err 401 "Access token required") ∧
    (∀ tok, extractToken h = some tok → verify tok = none →
      runProtected verify h f = .err 403 "Invalid or expired token") ∧
    (∀ tok c, extractToken h = some tok → verify tok = some c →
      runProtected verify h f = .ok (f c)) := by
  refine ⟨?_, ?_, ?_⟩
  · intro he
    simp [runProtected, authenticateToken, he]
  · intro tok he hv
    simp [runProtected, authenticateToken, he, hv]
  · intro tok c he hv
    simp [runProtected, authenticateToken, he, hv]

/-- Concrete check of `auth_middleware_gate`: one verifier, a missing header,
a bad token, and a good token. -/
theorem auth_middleware_gate_witness :
    runProtected (fun tok => if tok == "good" then some ⟨1, "demo"⟩ else none)
        none (fun c => c.userId) = .err 401 "Access token required" ∧
    runProtected (fun tok => if tok == "good" then some ⟨1, "demo"⟩ else none)
        (some "Bearer bad") (fun c => c.userId) =
      .err 403 "Invalid or expired token" ∧
    runProtected (fun tok => if tok == "good" then some ⟨1, "demo"⟩ else none)
        (some "Bearer good") (fun c => c.userId) = .ok 1 :=
  ⟨(auth_middleware_gate (fun tok => if tok == "good" then some ⟨1, "demo"⟩ else none)
      none (fun c => c.userId)).1 (by decide),
   (auth_middleware_gate (fun tok => if tok == "good" then some ⟨1, "demo"⟩ else none)
      (some "Bearer bad") (fun c => c.userId)).2.1 "bad" (by decide) (by decide),
   (auth_middleware_gate (fun tok => if tok == "good" then some ⟨1, "demo"⟩ else none)
      (some "Bearer good") (fun c => c.userId)).2.2 "good" ⟨1, "demo"⟩
      (by decide) (by decide)⟩

/-- C9: an authenticated `DELETE /api/tasks/:id` whose id parameter parses to
no stored task's id answers 404 with the NotFound error and leaves the state
(in particular the task store) unchanged, so deleting an absent id is
idempotent in effect. -/
theorem delete_absent_id (s : ServerState) (userId : Nat) (idStr : String)
    (habsent : ∀ t ∈ s.tasks, parseIntJS idStr ≠ some (t.id : Int)) :
    deleteTask s userId idStr = (⟨404, some "Task not found"⟩, s) := by
  have hl : lookupTask s idStr = none := by
    unfold lookupTask
    cases hp : parseIntJS idStr with
    | none => rfl
    | some k =>
      unfold taskGet
      apply List.find?_eq_none.mpr
      intro t ht
      have hne := habsent t ht
      rw [hp] at hne
      simp only [ne_eq, Option.some.injEq] at hne
      simp only [beq_iff_eq]
      exact fun hh => hne hh.symm
  simp [deleteTask, hl]

/-- Concrete check of `delete_absent_id`: deleting id 99 from a store holding
only id 1. -/
theorem delete_absent_id_witness :
    (∀ t ∈ (⟨[⟨1, 1, "a", "", "low", none, false, 0, 0⟩], [], 2, 1⟩ : ServerState).tasks,
      parseIntJS "99" ≠ some (t.id : Int)) ∧
    deleteTask ⟨[⟨1, 1, "a", "", "low", none, false, 0, 0⟩], [], 2, 1⟩ 1 "99" =
      (⟨404, some "Task not found"⟩, ⟨[⟨1, 1, "a", "", "low", none, false, 0, 0⟩], [], 2, 1⟩) :=
  ⟨by decide,
   delete_absent_id ⟨[⟨1, 1, "a", "", "low", none, false, 0, 0⟩], [], 2, 1⟩ 1 "99" (by decide)⟩

/-- Replacing the entry that a `find?` by key locates yields the replacement
under the same `find?`. -/
theorem find?_map_set (k : Int) (u : Task) (m : List Task) :
    ∀ t : Task, m.find? (fun x => (x.id : Int) == k) = some t → u.id = t.id →
      (m.map (fun x => if x.id == u.id then u else x)).find?
          (fun x => (x.id : Int) == k) = some u := by
  induction m with
  | nil =>
    intro t hg _
    simp at hg
  | cons a tl ih =>
    intro t hg hid
    by_cases hpa : ((a.id : Int) == k) = true
    · have hfc : List.find? (fun x => (x.id : Int) == k) (a :: tl) = some a :=
        List.find?_cons_of_pos tl hpa
      rw [hfc] at hg
      injection hg with hat
      subst hat
      have hcond : (a.id == u.id) = true := beq_iff_eq.mpr hid.symm
      rw [List.map_cons, if_pos hcond]
      apply List.find?_cons_of_pos
      rw [hid]
      exact hpa
    · have hfc : List.find? (fun x => (x.id : Int) == k) (a :: tl) =
          List.find? (fun x => (x.id : Int) == k) tl :=
        List.find?_cons_of_neg tl hpa
      rw [hfc] at hg
      have hpt := List.find?_some hg
      have hcond : ¬((a.id == u.id) = true) := by
        intro hc
        apply hpa
        have h1 : a.id = u.id := beq_iff_eq.mp hc
        rw [h1, hid]
        exact hpt
      rw [List.map_cons, if_neg hcond]
      have hfc2 : List.find? (fun x => (x.id : Int) == k)
            (a :: (tl.map (fun x => if x.id == u.id then u else x))) =
          List.find? (fun x => (x.id : Int) == k)
            (tl.map (fun x => if x.id == u.id then u else x)) :=
        List.find?_cons_of_neg _ hpa
      rw [hfc2]
      exact ih t hg hid

/-- `Map.set` with a record carrying the found entry's id makes the keyed
lookup return the new record. -/
theorem taskGet_taskSet_of_found {m : List Task} {t u : Task} {k : Int}
    (hg : taskGet m k = some t) (hid : u.id = t.id) :
    taskGet (taskSet m u) k = some u := by
  have hmem : t ∈ m := List.mem_of_find?_eq_some hg
  have hany : m.any (fun x => x.id == u.id) = true := by
    apply List.any_eq_true.mpr
    exact ⟨t, hmem, beq_iff_eq.mpr hid.symm⟩
  unfold taskSet
  rw [if_pos hany]
  exact find?_map_set k u m t hg hid

/-- C2 (amended): updating an owned task with a patch that sets the title —
even a patch that also carries `id` and `userId` keys — and then fetching the
same id returns the task with the new title, `updatedAt` set to the update
time, and every other field (in particular owner and id) unchanged. -/
theorem update_get_roundtrip (s : ServerState) (uid now : Nat) (idStr x : String)
    (t : Task) (pid puid : Option Nat)
    (hl : lookupTask s idStr = some t) (hown : t.userId = uid) :
    getTaskById
        (putTask s uid idStr ⟨pid, puid, some x, none, none, none, none, none, none⟩ now).2
        uid idStr =
      ⟨200, none, some { t with title := x, updatedAt := now }⟩ := by
  subst hown
  obtain ⟨k, hp, hg⟩ : ∃ k, parseIntJS idStr = some k ∧ taskGet s.tasks k = some t := by
    unfold lookupTask at hl
    cases hq : parseIntJS idStr with
    | none => rw [hq] at hl; simp at hl
    | some k => rw [hq] at hl; exact ⟨k, rfl, hl⟩
  have hmerge : mergeTask t ⟨pid, puid, some x, none, none, none, none, none, none⟩ t.userId now
      = { t with title := x, updatedAt := now } := by
    simp [mergeTask]
  have hput : (putTask s t.userId idStr ⟨pid, puid, some x, none, none, none, none, none, none⟩ now).2
      = { s with tasks := taskSet s.tasks { t with title := x, updatedAt := now } } := by
    unfold putTask
    rw [hl]
    simp [hmerge]
  rw [hput]
  have hset : taskGet (taskSet s.tasks { t with title := x, updatedAt := now }) k
      = some { t with title := x, updatedAt := now } :=
    taskGet_taskSet_of_found hg rfl
  unfold getTaskById lookupTask
  simp only [hp]
  simp [hset]

/-- Counterexample to C2 as stated: after `update(1, {title:"x"})` at time 7,
`get(1)` does not return the original task with only the title changed — the
`updatedAt` field has changed as well. -/
theorem update_get_roundtrip_counterexample :
    getTaskById
        (putTask ⟨[⟨1, 1, "a", "", "low", none, false, 0, 0⟩], [], 2, 1⟩ 1 "1"
          ⟨none, none, some "x", none, none, none, none, none, none⟩ 7).2 1 "1" ≠
      ⟨200, none, some ⟨1, 1, "x", "", "low", none, false, 0, 0⟩⟩ := by
  decide

/-- Concrete check of `update_get_roundtrip`: a patch carrying `id: 99` and
`userId: 42` still leaves id and owner unchanged and only title/updatedAt
differ. -/
theorem update_get_roundtrip_witness :
    lookupTask ⟨[⟨1, 1, "a", "", "low", none, false, 0, 0⟩], [], 2, 1⟩ "1" =
      some ⟨1, 1, "a", "", "low", none, false, 0, 0⟩ ∧
    getTaskById
        (putTask ⟨[⟨1, 1, "a", "", "low", none, false, 0, 0⟩], [], 2, 1⟩ 1 "1"
          ⟨some 99, some 42, some "x", none, none, none, none, none, none⟩ 7).2 1 "1" =
      ⟨200, none, some ⟨1, 1, "x", "", "low", none, false, 0, 7⟩⟩ :=
  ⟨by decide,
   update_get_roundtrip ⟨[⟨1, 1, "a", "", "low", none, false, 0, 0⟩], [], 2, 1⟩ 1 7 "1" "x"
     ⟨1, 1, "a", "", "low", none, false, 0, 0⟩ (some 99) (some 42) (by decide) rfl⟩

/-- C6: registering with an email or username already present (and otherwise
valid input) answers 409 Conflict and leaves the state unchanged (no user
created); logging in with the correct password of a deactivated account
answers 403 Forbidden, issues no token, and leaves the state unchanged. -/
theorem register_conflict_login_deactivated (c : Ctx) (s : ServerState) :
    (∀ u e p now, u ≠ "" → e ≠ "" → p ≠ "" →
      c.isValidEmail e = true → c.passwordOk p = true →
      s.users.any (fun x => x.email == e || x.username == u) = true →
      register c s (some u) (some e) (some p) now =
        (⟨409, some "User already exists", none, none⟩, s)) ∧
    (∀ e p now usr, e ≠ "" → p ≠ "" →
      s.users.find? (fun x => x.email == e) = some usr →
      c.verifyPassword p usr.password = true → usr.isActive = false →
      login c s (some e) (some p) now =
        (⟨403, some "Account is deactivated", none, none⟩, s)) := by
  constructor
  · intro u e p now hu he hp hve hpw hdup
    unfold register
    dsimp only
    rw [if_neg (by simp [hu, he, hp]), if_neg (by simp [hve]),
      if_neg (by simp [hpw]), if_pos hdup]
  · intro e p now usr he hp hfind hv hact
    unfold login
    dsimp only
    rw [if_neg (by simp [he, hp]), hfind]
    simp [hv, hact]

/-- Concrete check of `register_conflict_login_deactivated`: a duplicate
username registration and a deactivated-account login. -/
theorem register_conflict_login_deactivated_witness :
    register ⟨fun _ => true, fun _ => true, fun p => p, fun p h => p == h, fun _ _ => "tok"⟩
        ⟨[], [⟨1, "demo", "demo@example.com", "password123", true, 0, 0, none⟩,
              ⟨2, "off", "off@example.com", "pw", false, 0, 0, none⟩], 1, 3⟩
        (some "demo") (some "new@example.com") (some "Str0ngPass!") 9 =
      (⟨409, some "User already exists", none, none⟩,
       ⟨[], [⟨1, "demo", "demo@example.com", "password123", true, 0, 0, none⟩,
             ⟨2, "off", "off@example.com", "pw", false, 0, 0, none⟩], 1, 3⟩) ∧
    login ⟨fun _ => true, fun _ => true, fun p => p, fun p h => p == h, fun _ _ => "tok"⟩
        ⟨[], [⟨1, "demo", "demo@example.com", "password123", true, 0, 0, none⟩,
              ⟨2, "off", "off@example.com", "pw", false, 0, 0, none⟩], 1, 3⟩
        (some "off@example.com") (some "pw") 9 =
      (⟨403, some "Account is deactivated", none, none⟩,
       ⟨[], [⟨1, "demo", "demo@example.com", "password123", true, 0, 0, none⟩,
             ⟨2, "off", "off@example.com", "pw", false, 0, 0, none⟩], 1, 3⟩) :=
  ⟨(register_conflict_login_deactivated
      ⟨fun _ => true, fun _ => true, fun p => p, fun p h => p == h, fun _ _ => "tok"⟩
      ⟨[], [⟨1, "demo", "demo@example.com", "password123", true, 0, 0, none⟩,
            ⟨2, "off", "off@example.com", "pw", false, 0, 0, none⟩], 1, 3⟩).1
      "demo" "new@example.com" "Str0ngPass!" 9 (by decide) (by decide) (by decide)
      rfl rfl (by decide),
   (register_conflict_login_deactivated
      ⟨fun _ => true, fun _ => true, fun p => p, fun p h => p == h, fun _ _ => "tok"⟩
      ⟨[], [⟨1, "demo", "demo@example.com", "password123", true, 0, 0, none⟩,
            ⟨2, "off", "off@example.com", "pw", false, 0, 0, none⟩], 1, 3⟩).2
      "off@example.com" "pw" 9 ⟨2, "off", "off@example.com", "pw", false, 0, 0, none⟩
      (by decide) (by decide) (by decide) (by decide) rfl⟩

/-- Setting a record into the task map leaves that record a member of the
result. -/
theorem taskSet_self_mem (m : List Task) (t : Task) : t ∈ taskSet m t := by
  unfold taskSet
  by_cases h : m.any (fun x => x.id == t.id) = true
  · rw [if_pos h]
    obtain ⟨a, ha, hat⟩ := List.any_eq_true.mp h
    refine List.mem_map.mpr ⟨a, ha, ?_⟩
    rw [if_pos hat]
  · rw [if_neg h]
    exact List.mem_append_right m (List.mem_singleton.mpr rfl)

/-- C7 (amended): `POST /api/tasks` answers 400 and creates nothing when the
title is absent or trims to empty; otherwise it stores (and returns with 201)
a task whose title is the trimmed title, whose owner is the requester, whose
completion flag is false, and whose serialized record carries exactly the
keys id, userId, title, description, priority, dueDate, completed, createdAt,
updatedAt — in particular no category and no tags field. -/
theorem create_task_contract (s : ServerState) (uid : Nat) (b : CreateBody) (now : Nat) :
    ((b.title = none ∨ (∃ str, b.title = some str ∧ trimJS str = "")) →
      createTask s uid b now = (⟨400, some "Task title is required", none⟩, s)) ∧
    (∀ str, b.title = some str → trimJS str ≠ "" →
      ∃ task, createTask s uid b now =
          (⟨201, none, some task⟩,
           { s with tasks := taskSet s.tasks task, nextTaskId := s.nextTaskId + 1 }) ∧
        task.title = trimJS str ∧ task.userId = uid ∧ task.completed = false ∧
        task.id = s.nextTaskId ∧ task ∈ (createTask s uid b now).2.tasks ∧
        (taskJson task).map Prod.fst =
          ["id", "userId", "title", "description", "priority", "dueDate",
           "completed", "createdAt", "updatedAt"]) := by
  constructor
  · rintro (hnone | ⟨str, hsome, htrim⟩)
    · simp [createTask, hnone]
    · simp [createTask, hsome, htrim]
  · intro str hsome htrim
    have hstr : str ≠ "" := fun hh => htrim (by rw [hh]; rfl)
    have hcreate : createTask s uid b now =
        (⟨201, none, some ⟨s.nextTaskId, uid, trimJS str,
            (match b.description with | none => "" | some "" => "" | some d => trimJS d),
            (match b.priority with | none => "medium" | some "" => "medium" | some p => p),
            (match b.dueDate with | none => none | some "" => none | some d => some d),
            false, now, now⟩⟩,
         { s with
            tasks := taskSet s.tasks ⟨s.nextTaskId, uid, trimJS str,
              (match b.description with | none => "" | some "" => "" | some d => trimJS d),
              (match b.priority with | none => "medium" | some "" => "medium" | some p => p),
              (match b.dueDate with | none => none | some "" => none | some d => some d),
              false, now, now⟩,
            nextTaskId := s.nextTaskId + 1 }) := by
      simp [createTask, hsome, hstr, htrim]
    refine ⟨_, hcreate, rfl, rfl, rfl, rfl, ?_, rfl⟩
    rw [hcreate]
    exact taskSet_self_mem s.tasks _

/-- Counterexample to C7 as stated: the record stored by a successful create
carries exactly nine keys, among which neither `category` nor `tags`
appears. -/
theorem create_task_counterexample :
    (createTask ⟨[], [], 1, 1⟩ 1 ⟨some "Buy milk", none, some "low", none⟩ 5).1.status = 201 ∧
    ((createTask ⟨[], [], 1, 1⟩ 1 ⟨some "Buy milk", none, some "low", none⟩ 5).1.task.map
        (fun task => (taskJson task).map Prod.fst)) =
      some ["id", "userId", "title", "description", "priority", "dueDate",
            "completed", "createdAt", "updatedAt"] ∧
    ¬("category" ∈ ["id", "userId", "title", "description", "priority", "dueDate",
        "completed", "createdAt", "updatedAt"]) ∧
    ¬("tags" ∈ ["id", "userId", "title", "description", "priority", "dueDate",
        "completed", "createdAt", "updatedAt"]) := by
  decide

/-- Concrete check of `create_task_contract`: a whitespace-only title is
rejected, and a padded title is stored trimmed for the requester. -/
theorem create_task_contract_witness :
    createTask ⟨[], [], 1, 1⟩ 1 ⟨some "   ", none, none, none⟩ 5 =
      (⟨400, some "Task title is required", none⟩, ⟨[], [], 1, 1⟩) ∧
    (∃ task, createTask ⟨[], [], 1, 1⟩ 1 ⟨some " Buy milk ", none, some "low", none⟩ 5 =
        (⟨201, none, some task⟩,
         { (⟨[], [], 1, 1⟩ : ServerState) with
            tasks := taskSet (⟨[], [], 1, 1⟩ : ServerState).tasks task, nextTaskId := 2 }) ∧
      task.title = trimJS " Buy milk " ∧ task.userId = 1 ∧ task.completed = false ∧
      task.id = 1 ∧
      task ∈ (createTask ⟨[], [], 1, 1⟩ 1 ⟨some " Buy milk ", none, some "low", none⟩ 5).2.tasks ∧
      (taskJson task).map Prod.fst =
        ["id", "userId", "title", "description", "priority", "dueDate",
         "completed", "createdAt", "updatedAt"]) :=
  ⟨(create_task_contract ⟨[], [], 1, 1⟩ 1 ⟨some "   ", none, none, none⟩ 5).1
      (Or.inr ⟨"   ", rfl, by decide⟩),
   (create_task_contract ⟨[], [], 1, 1⟩ 1 ⟨some " Buy milk ", none, some "low", none⟩ 5).2
      " Buy milk " rfl (by decide)⟩

/-- The status filter in implication form. -/
theorem matchesStatus_iff (t : QTask) (o : Option String) :
    matchesStatus t o = true ↔
      ((o = some "pending" → t.completed = false) ∧
       (o = some "completed" → t.completed = true)) := by
  cases o with
  | none => simp [matchesStatus]
  | some v =>
    by_cases h1 : v = "pending"
    · subst h1; simp [matchesStatus]
    · by_cases h2 : v = "completed"
      · subst h2; simp [matchesStatus]
      · simp [matchesStatus, h1, h2]

/-- An enum-guarded equality filter in implication form. -/
theorem enumFilter_iff (tval : String) (enum : List String) (o : Option String) :
    (match o with
      | none => true
      | some v => if enum.contains v then tval == v else true) = true ↔
      (∀ v, o = some v → v ∈ enum → tval = v) := by
  cases o with
  | none => simp
  | some v =>
    by_cases h : v ∈ enum
    · have hc : enum.contains v = true := by simp [h]
      simp [hc, h]
    · have hc : enum.contains v = false := by simp [h]
      simp [hc, h]

/-- The priority filter in implication form. -/
theorem matchesPriority_iff (t : QTask) (o : Option String) :
    matchesPriority t o = true ↔ (∀ v, o = some v → v ∈ priorities → t.priority = v) := by
  cases o with
  | none => simp [matchesPriority]
  | some v => simpa [matchesPriority] using enumFilter_iff t.priority priorities (some v)

/-- The category filter in implication form. -/
theorem matchesCategory_iff (t : QTask) (o : Option String) :
    matchesCategory t o = true ↔ (∀ v, o = some v → v ∈ categories → t.category = v) := by
  cases o with
  | none => simp [matchesCategory]
  | some v => simpa [matchesCategory] using enumFilter_iff t.category categories (some v)

/-- The search filter in disjunction form. -/
theorem matchesSearch_iff (t : QTask) (o : Option String) :
    matchesSearch t o = true ↔
      (∀ q, o = some q →
        (containsSub (toLowerJS t.title) (toLowerJS q) = true ∨
         containsSub (toLowerJS t.description) (toLowerJS q) = true)) := by
  cases o with
  | none => simp [matchesSearch]
  | some q => simp [matchesSearch]

/-- C3: membership in the query result — exactly the requester's tasks that
pass the status, priority, category and search filters ANDed together, where
an unset filter imposes no constraint and an unknown filter value (a status
other than pending/completed, a priority or category outside its enum) is
ignored rather than rejected. -/
theorem query_filter_semantics (uid : Nat) (f : QueryFilter) (tasks : List QTask)
    (t : QTask) :
    t ∈ query uid f tasks ↔
      t ∈ tasks ∧ t.userId = uid ∧
      (f.status = some "pending" → t.completed = false) ∧
      (f.status = some "completed" → t.completed = true) ∧
      (∀ v, f.priority = some v → v ∈ priorities → t.priority = v) ∧
      (∀ v, f.category = some v → v ∈ categories → t.category = v) ∧
      (∀ q, f.search = some q →
        (containsSub (toLowerJS t.title) (toLowerJS q) = true ∨
         containsSub (toLowerJS t.description) (toLowerJS q) = true)) := by
  unfold query
  rw [List.mem_insertionSort, List.mem_filter, List.mem_filter]
  rw [Bool.and_eq_true, Bool.and_eq_true, Bool.and_eq_true]
  rw [matchesStatus_iff, matchesPriority_iff, matchesCategory_iff, matchesSearch_iff]
  simp only [beq_iff_eq]
  tauto

/-- C4: the query's sort is stable with ascending-id tie-break — whenever two
output positions hold tasks with equal sort-key values, their ids are in
ascending order, for every sort direction (in particular both `asc` and
`desc`), provided the input tasks have pairwise distinct ids. -/
theorem query_sort_stable (uid : Nat) (f : QueryFilter) (tasks : List QTask)
    (hnd : (tasks.map QTask.id).Nodup) (i j : Nat) (hij : i < j)
    (hj : j < (query uid f tasks).length)
    (hkey : keyVal (f.sortBy.getD "createdAt")
        ((query uid f tasks).get ⟨i, Nat.lt_trans hij hj⟩) =
      keyVal (f.sortBy.getD "createdAt") ((query uid f tasks).get ⟨j, hj⟩)) :
    ((query uid f tasks).get ⟨i, Nat.lt_trans hij hj⟩).id <
      ((query uid f tasks).get ⟨j, hj⟩).id := by
  have hsorted : List.Sorted
      (taskLe (f.sortBy.getD "createdAt") (f.sortOrder.getD "asc"))
      (query uid f tasks) :=
    List.sorted_insertionSort _ _
  have hrel := List.pairwise_iff_get.mp hsorted ⟨i, Nat.lt_trans hij hj⟩ ⟨j, hj⟩ hij
  rcases hrel with hlt | ⟨_, hle⟩
  · exfalso
    rw [hkey] at hlt
    by_cases hdir : ((f.sortOrder.getD "asc") == "desc") = true
    · rw [if_pos hdir] at hlt
      exact lt_irrefl _ hlt
    · rw [if_neg hdir] at hlt
      exact lt_irrefl _ hlt
  · have hndout : ((query uid f tasks).map QTask.id).Nodup := by
      have hsub : List.Sublist
          ((tasks.filter (fun t => t.userId == uid)).filter
            (fun t => matchesStatus t f.status && matchesPriority t f.priority &&
              matchesCategory t f.category && matchesSearch t f.search)) tasks :=
        (List.filter_sublist _).trans (List.filter_sublist _)
      have hnd2 := hnd.sublist (hsub.map QTask.id)
      have hpm := (List.perm_insertionSort
        (taskLe (f.sortBy.getD "createdAt") (f.sortOrder.getD "asc"))
        ((tasks.filter (fun t => t.userId == uid)).filter
          (fun t => matchesStatus t f.status && matchesPriority t f.priority &&
            matchesCategory t f.category && matchesSearch t f.search))).map QTask.id
      exact hpm.nodup_iff.mpr hnd2
    have hlen : ((query uid f tasks).map QTask.id).length = (query uid f tasks).length :=
      List.length_map _ _
    have hne : ((query uid f tasks).get ⟨i, Nat.lt_trans hij hj⟩).id ≠
        ((query uid f tasks).get ⟨j, hj⟩).id := by
      intro hid
      have hgi : ((query uid f tasks).map QTask.id).get ⟨i, by rw [hlen]; exact Nat.lt_trans hij hj⟩ =
          ((query uid f tasks).get ⟨i, Nat.lt_trans hij hj⟩).id := by
        simp
      have hgj : ((query uid f tasks).map QTask.id).get ⟨j, by rw [hlen]; exact hj⟩ =
          ((query uid f tasks).get ⟨j, hj⟩).id := by
        simp
      have heqg : ((query uid f tasks).map QTask.id).get ⟨i, by rw [hlen]; exact Nat.lt_trans hij hj⟩ =
          ((query uid f tasks).map QTask.id).get ⟨j, by rw [hlen]; exact hj⟩ := by
        rw [hgi, hgj, hid]
      have := (List.Nodup.get_inj_iff hndout).mp heqg
      have hij' : i = j := congrArg Fin.val this
      omega
    exact lt_of_le_of_ne hle hne

/-- Concrete check of `query_sort_stable`: two equal-createdAt tasks keep
ascending-id order under a descending createdAt sort. -/
theorem query_sort_stable_witness :
    ((([⟨2, 1, "b", "", "low", "work", none, false, [], 5⟩,
        ⟨1, 1, "a", "", "low", "work", none, false, [], 5⟩] : List QTask).map QTask.id).Nodup) ∧
    1 < (query 1 ⟨none, none, none, none, some "createdAt", some "desc"⟩
        [⟨2, 1, "b", "", "low", "work", none, false, [], 5⟩,
         ⟨1, 1, "a", "", "low", "work", none, false, [], 5⟩]).length ∧
    ((query 1 ⟨none, none, none, none, some "createdAt", some "desc"⟩
        [⟨2, 1, "b", "", "low", "work", none, false, [], 5⟩,
         ⟨1, 1, "a", "", "low", "work", none, false, [], 5⟩]).get
      ⟨0, by decide⟩).id <
      ((query 1 ⟨none, none, none, none, some "createdAt", some "desc"⟩
          [⟨2, 1, "b", "", "low", "work", none, false, [], 5⟩,
           ⟨1, 1, "a", "", "low", "work", none, false, [], 5⟩]).get
        ⟨1, by decide⟩).id :=
  ⟨by decide, by decide,
   query_sort_stable 1 ⟨none, none, none, none, some "createdAt", some "desc"⟩
     [⟨2, 1, "b", "", "low", "work", none, false, [], 5⟩,
      ⟨1, 1, "a", "", "low", "work", none, false, [], 5⟩]
     (by decide) 0 1 (by decide) (by decide) (by decide)⟩

/-- No request ever decreases the task id counter. -/
theorem step_nextTaskId_mono (c : Ctx) (s : ServerState) (op : Op) :
    s.nextTaskId ≤ (step c s op).nextTaskId := by
  cases op with
  | opRegister u e p now =>
    show s.nextTaskId ≤ (register c s u e p now).2.nextTaskId
    unfold register
    repeat' split
    all_goals first
      | exact Nat.le_refl _
      | exact Nat.le_succ _
  | opLogin e p now =>
    show s.nextTaskId ≤ (login c s e p now).2.nextTaskId
    unfold login
    repeat' split
    all_goals first
      | exact Nat.le_refl _
      | exact Nat.le_succ _
  | opCreateTask uid b now =>
    show s.nextTaskId ≤ (createTask s uid b now).2.nextTaskId
    unfold createTask
    repeat' split
    all_goals first
      | exact Nat.le_refl _
      | exact Nat.le_succ _
  | opPutTask uid idStr p now =>
    show s.nextTaskId ≤ (putTask s uid idStr p now).2.nextTaskId
    unfold putTask
    repeat' split
    all_goals first
      | exact Nat.le_refl _
      | exact Nat.le_succ _
  | opDeleteTask uid idStr =>
    show s.nextTaskId ≤ (deleteTask s uid idStr).2.nextTaskId
    unfold deleteTask
    repeat' split
    all_goals first
      | exact Nat.le_refl _
      | exact Nat.le_succ _

/-- No request ever decreases the user id counter. -/
theorem step_nextUserId_mono (c : Ctx) (s : ServerState) (op : Op) :
    s.nextUserId ≤ (step c s op).nextUserId := by
  cases op with
  | opRegister u e p now =>
    show s.nextUserId ≤ (register c s u e p now).2.nextUserId
    unfold register
    repeat' split
    all_goals first
      | exact Nat.le_refl _
      | exact Nat.le_succ _
  | opLogin e p now =>
    show s.nextUserId ≤ (login c s e p now).2.nextUserId
    unfold login
    repeat' split
    all_goals first
      | exact Nat.le_refl _
      | exact Nat.le_succ _
  | opCreateTask uid b now =>
    show s.nextUserId ≤ (createTask s uid b now).2.nextUserId
    unfold createTask
    repeat' split
    all_goals first
      | exact Nat.le_refl _
      | exact Nat.le_succ _
  | opPutTask uid idStr p now =>
    show s.nextUserId ≤ (putTask s uid idStr p now).2.nextUserId
    unfold putTask
    repeat' split
    all_goals first
      | exact Nat.le_refl _
      | exact Nat.le_succ _
  | opDeleteTask uid idStr =>
    show s.nextUserId ≤ (deleteTask s uid idStr).2.nextUserId
    unfold deleteTask
    repeat' split
    all_goals first
      | exact Nat.le_refl _
      | exact Nat.le_succ _

/-- A request that assigns a task id assigns exactly the current counter
value and bumps the counter by one. -/
theorem taskIdAssigned_spec (c : Ctx) (s : ServerState) (op : Op) (a : Nat)
    (h : taskIdAssigned s op = some a) :
    a = s.nextTaskId ∧ (step c s op).nextTaskId = s.nextTaskId + 1 := by
  cases op with
  | opRegister u e p now => simp [taskIdAssigned] at h
  | opLogin e p now => simp [taskIdAssigned] at h
  | opCreateTask uid b now =>
    simp only [taskIdAssigned] at h
    show a = s.nextTaskId ∧ (createTask s uid b now).2.nextTaskId = s.nextTaskId + 1
    unfold createTask at h ⊢
    by_cases hc : (match b.title with
        | none => true
        | some t => (t == "" || trimJS t == "")) = true
    · rw [if_pos hc] at h
      simp at h
    · rw [if_neg hc] at h ⊢
      simp at h
      exact ⟨h.symm, rfl⟩
  | opPutTask uid idStr p now => simp [taskIdAssigned] at h
  | opDeleteTask uid idStr => simp [taskIdAssigned] at h

/-- A request that assigns a user id assigns exactly the current counter
value and bumps the counter by one. -/
theorem userIdAssigned_spec (c : Ctx) (s : ServerState) (op : Op) (a : Nat)
    (h : userIdAssigned c s op = some a) :
    a = s.nextUserId ∧ (step c s op).nextUserId = s.nextUserId + 1 := by
  cases op with
  | opRegister u e p now =>
    simp only [userIdAssigned] at h
    show a = s.nextUserId ∧ (register c s u e p now).2.nextUserId = s.nextUserId + 1
    cases u with
    | none => unfold register at h; simp at h
    | some u' =>
      cases e with
      | none => unfold register at h; simp at h
      | some e' =>
        cases p with
        | none => unfold register at h; simp at h
        | some p' =>
          unfold register at h ⊢
          dsimp only at h ⊢
          by_cases h1 : (u' == "" || e' == "" || p' == "") = true
          · rw [if_pos h1] at h
            simp at h
          · rw [if_neg h1] at h ⊢
            by_cases h2 : (!(c.isValidEmail e')) = true
            · rw [if_pos h2] at h
              simp at h
            · rw [if_neg h2] at h ⊢
              by_cases h3 : (!(c.passwordOk p')) = true
              · rw [if_pos h3] at h
                simp at h
              · rw [if_neg h3] at h ⊢
                by_cases h4 : (s.users.any fun x => x.email == e' || x.username == u') = true
                · rw [if_pos h4] at h
                  simp at h
                · rw [if_neg h4] at h ⊢
                  simp at h
                  exact ⟨h.symm, rfl⟩
  | opLogin e p now => simp [userIdAssigned] at h
  | opCreateTask uid b now => simp [userIdAssigned] at h
  | opPutTask uid idStr p now => simp [userIdAssigned] at h
  | opDeleteTask uid idStr => simp [userIdAssigned] at h

/-- Every task id assigned during a run is at least the starting counter. -/
theorem runTaskIds_lb (c : Ctx) : ∀ (ops : List Op) (s : ServerState) (x : Nat),
    x ∈ runTaskIds c s ops → s.nextTaskId ≤ x := by
  intro ops
  induction ops with
  | nil =>
    intro s x hx
    simp [runTaskIds] at hx
  | cons op ops ih =>
    intro s x hx
    unfold runTaskIds at hx
    rw [List.mem_append] at hx
    rcases hx with hx | hx
    · cases hass : taskIdAssigned s op with
      | none => rw [hass] at hx; simp at hx
      | some a =>
        rw [hass] at hx
        simp at hx
        subst hx
        exact le_of_eq (taskIdAssigned_spec c s op x hass).1.symm
    · calc s.nextTaskId ≤ (step c s op).nextTaskId := step_nextTaskId_mono c s op
        _ ≤ x := ih (step c s op) x hx

/-- Every user id assigned during a run is at least the starting counter. -/
theorem runUserIds_lb (c : Ctx) : ∀ (ops : List Op) (s : ServerState) (x : Nat),
    x ∈ runUserIds c s ops → s.nextUserId ≤ x := by
  intro ops
  induction ops with
  | nil =>
    intro s x hx
    simp [runUserIds] at hx
  | cons op ops ih =>
    intro s x hx
    unfold runUserIds at hx
    rw [List.mem_append] at hx
    rcases hx with hx | hx
    · cases hass : userIdAssigned c s op with
      | none => rw [hass] at hx; simp at hx
      | some a =>
        rw [hass] at hx
        simp at hx
        subst hx
        exact le_of_eq (userIdAssigned_spec c s op x hass).1.symm
    · calc s.nextUserId ≤ (step c s op).nextUserId := step_nextUserId_mono c s op
        _ ≤ x := ih (step c s op) x hx

/-- The task ids assigned during a run are strictly increasing. -/
theorem runTaskIds_pairwise (c : Ctx) : ∀ (ops : List Op) (s : ServerState),
    (runTaskIds c s ops).Pairwise (· < ·) := by
  intro ops
  induction ops with
  | nil =>
    intro s
    simp [runTaskIds]
  | cons op ops ih =>
    intro s
    unfold runTaskIds
    cases hass : taskIdAssigned s op with
    | none => simpa using ih (step c s op)
    | some a =>
      simp only [Option.toList_some, List.singleton_append]
      refine List.Pairwise.cons ?_ (ih (step c s op))
      intro x hx
      have hx' : (step c s op).nextTaskId ≤ x := runTaskIds_lb c ops (step c s op) x hx
      have hspec := taskIdAssigned_spec c s op a hass
      omega

/-- The user ids assigned during a run are strictly increasing. -/
theorem runUserIds_pairwise (c : Ctx) : ∀ (ops : List Op) (s : ServerState),
    (runUserIds c s ops).Pairwise (· < ·) := by
  intro ops
  induction ops with
  | nil =>
    intro s
    simp [runUserIds]
  | cons op ops ih =>
    intro s
    unfold runUserIds
    cases hass : userIdAssigned c s op with
    | none => simpa using ih (step c s op)
    | some a =>
      simp only [Option.toList_some, List.singleton_append]
      refine List.Pairwise.cons ?_ (ih (step c s op))
      intro x hx
      have hx' : (step c s op).nextUserId ≤ x := runUserIds_lb c ops (step c s op) x hx
      have hspec := userIdAssigned_spec c s op a hass
      omega

/-- C8: id allocation is a strictly monotone per-entity counter — over any
run of requests, the task ids handed out are pairwise strictly increasing
(each newly created task's id exceeds every id assigned before it, so no id
is ever reused, including after a delete), likewise the user ids, and either
kind of handed-out id also exceeds every id already stored when the run
starts. -/
theorem id_allocation_monotone (c : Ctx) (s : ServerState) (ops : List Op)
    (ht : ∀ t ∈ s.tasks, t.id < s.nextTaskId)
    (hu : ∀ u ∈ s.users, u.id < s.nextUserId) :
    (runTaskIds c s ops).Pairwise (· < ·) ∧
    (runUserIds c s ops).Pairwise (· < ·) ∧
    (∀ x ∈ runTaskIds c s ops, ∀ t ∈ s.tasks, t.id < x) ∧
    (∀ x ∈ runUserIds c s ops, ∀ u ∈ s.users, u.id < x) := by
  refine ⟨runTaskIds_pairwise c ops s, runUserIds_pairwise c ops s, ?_, ?_⟩
  · intro x hx t htm
    exact lt_of_lt_of_le (ht t htm) (runTaskIds_lb c ops s x hx)
  · intro x hx u hum
    exact lt_of_lt_of_le (hu u hum) (runUserIds_lb c ops s x hx)

/-- Concrete check of `id_allocation_monotone`: create, delete, create again,
and one registration — the freed task id 1 is not reused. -/
theorem id_allocation_monotone_witness :
    (∀ t ∈ ([] : List Task), t.id < 1) ∧ (∀ u ∈ ([] : List User), u.id < 1) ∧
    runTaskIds ⟨fun _ => true, fun _ => true, fun p => p, fun p h => p == h, fun _ _ => "tok"⟩
        ⟨[], [], 1, 1⟩
        [.opCreateTask 1 ⟨some "a", none, none, none⟩ 0,
         .opDeleteTask 1 "1",
         .opCreateTask 1 ⟨some "b", none, none, none⟩ 0,
         .opRegister (some "u") (some "u@x.io") (some "pw") 0] = [1, 2] ∧
    runUserIds ⟨fun _ => true, fun _ => true, fun p => p, fun p h => p == h, fun _ _ => "tok"⟩
        ⟨[], [], 1, 1⟩
        [.opCreateTask 1 ⟨some "a", none, none, none⟩ 0,
         .opDeleteTask 1 "1",
         .opCreateTask 1 ⟨some "b", none, none, none⟩ 0,
         .opRegister (some "u") (some "u@x.io") (some "pw") 0] = [1] ∧
    (runTaskIds ⟨fun _ => true, fun _ => true, fun p => p, fun p h => p == h, fun _ _ => "tok"⟩
        ⟨[], [], 1, 1⟩
        [.opCreateTask 1 ⟨some "a", none, none, none⟩ 0,
         .opDeleteTask 1 "1",
         .opCreateTask 1 ⟨some "b", none, none, none⟩ 0,
         .opRegister (some "u") (some "u@x.io") (some "pw") 0]).Pairwise (· < ·) :=
  ⟨by decide, by decide, by decide, by decide,
   (id_allocation_monotone
     ⟨fun _ => true, fun _ => true, fun p => p, fun p h => p == h, fun _ _ => "tok"⟩
     ⟨[], [], 1, 1⟩
     [.opCreateTask 1 ⟨some "a", none, none, none⟩ 0,
      .opDeleteTask 1 "1",
      .opCreateTask 1 ⟨some "b", none, none, none⟩ 0,
      .opRegister (some "u") (some "u@x.io") (some "pw") 0]
     (by decide) (by decide)).1⟩

/-- A digit character is not one of the whitespace characters. -/
theorem isWs_false_of_digit (ch : Char) (h : ch.isDigit = true) : isWs ch = false := by
  by_cases h1 : ch = ' '
  · rw [h1] at h
    exact absurd h (by decide)
  by_cases h2 : ch = '\t'
  · rw [h2] at h
    exact absurd h (by decide)
  by_cases h3 : ch = '\n'
  · rw [h3] at h
    exact absurd h (by decide)
  by_cases h4 : ch = '\r'
  · rw [h4] at h
    exact absurd h (by decide)
  simp [isWs, h1, h2, h3, h4]

/-- `takeWhile` over a run of satisfying characters followed by a failing
head: both the appended and the bare run are taken whole. -/
theorem takeWhile_run_append (p : Char → Bool) : ∀ (ds sfx : List Char),
    (∀ ch ∈ ds, p ch = true) → (∀ ch, sfx.head? = some ch → p ch = false) →
    (ds ++ sfx).takeWhile p = ds ∧ ds.takeWhile p = ds
  | [], sfx, _, hsfx => by
    constructor
    · cases sfx with
      | nil => rfl
      | cons ch r =>
        simp [List.takeWhile_cons, hsfx ch rfl]
    · rfl
  | d :: ds', sfx, hds, hsfx => by
    have hd : p d = true := hds d (List.mem_cons_self d ds')
    have ih := takeWhile_run_append p ds' sfx
      (fun ch hch => hds ch (List.mem_cons_of_mem d hch)) hsfx
    constructor
    · simp [List.cons_append, List.takeWhile_cons, hd, ih.1]
    · simp [List.takeWhile_cons, hd, ih.2]

/-- When the input is not a `0x` hexadecimal literal, the unsigned parse is
the decimal-digit-prefix parse. -/
theorem parseUnsigned_of_nohex (cs : List Char)
    (h : ∀ x rest, cs = '0' :: x :: rest → (x == 'x' || x == 'X') = false) :
    parseUnsigned cs = parseDigits Char.isDigit digitVal 10 cs := by
  unfold parseUnsigned
  split
  · rename_i x rest
    rw [if_neg (by simp [h x rest rfl])]
  · rfl

/-- On an input whose first character is a digit, `parseInt` is the unsigned
parse (no whitespace to skip, no sign to read). -/
theorem parseIntCore_of_digit_head (d : Char) (cs : List Char) (hd : d.isDigit = true) :
    parseIntCore (d :: cs) = (parseUnsigned (d :: cs)).map (fun n => (n : Int)) := by
  unfold parseIntCore
  rw [List.dropWhile_cons, if_neg (by simp [isWs_false_of_digit d hd])]
  split
  · rename_i rest heq
    injection heq with h1 _
    rw [h1] at hd
    exact absurd hd (by decide)
  · rename_i rest heq
    injection heq with h1 _
    rw [h1] at hd
    exact absurd hd (by decide)
  · rfl

/-- Trailing characters after a digit run do not change `parseInt`, provided
the run is nonempty, the first trailing character is not a digit, and the
input is not thereby a `0x` literal. -/
theorem parseIntJS_append_nondigit (ds sfx : List Char) (hne : ds ≠ [])
    (hds : ∀ ch ∈ ds, ch.isDigit = true)
    (hsfx : ∀ ch, sfx.head? = some ch → ch.isDigit = false)
    (hhex : ∀ ch, ds = ['0'] → sfx.head? = some ch → (ch == 'x' || ch == 'X') = false) :
    parseIntJS (String.mk (ds ++ sfx)) = parseIntJS (String.mk ds) := by
  cases ds with
  | nil => exact absurd rfl hne
  | cons d ds' =>
    have hd : d.isDigit = true := hds d (List.mem_cons_self d ds')
    have hTW := takeWhile_run_append Char.isDigit (d :: ds') sfx hds hsfx
    show parseIntCore ((d :: ds') ++ sfx) = parseIntCore (d :: ds')
    have hnohex1 : ∀ x rest, d :: (ds' ++ sfx) = '0' :: x :: rest →
        (x == 'x' || x == 'X') = false := by
      intro x rest heq
      injection heq with h1 h2
      cases ds' with
      | nil =>
        rw [List.nil_append] at h2
        refine hhex x ?_ ?_
        · rw [h1]
        · rw [h2]
          rfl
      | cons e es =>
        rw [List.cons_append] at h2
        injection h2 with h3 _
        have hx : x.isDigit = true := by
          rw [← h3]
          exact hds e (List.mem_cons_of_mem d (List.mem_cons_self e es))
        by_cases hxx : x = 'x'
        · rw [hxx] at hx
          exact absurd hx (by decide)
        by_cases hxX : x = 'X'
        · rw [hxX] at hx
          exact absurd hx (by decide)
        simp [hxx, hxX]
    have hnohex2 : ∀ x rest, d :: ds' = '0' :: x :: rest →
        (x == 'x' || x == 'X') = false := by
      intro x rest heq
      injection heq with h1 h2
      have hx : x.isDigit = true := by
        apply hds
        rw [h2]
        exact List.mem_cons_of_mem d (List.mem_cons_self x rest)
      by_cases hxx : x = 'x'
      · rw [hxx] at hx
        exact absurd hx (by decide)
      by_cases hxX : x = 'X'
      · rw [hxX] at hx
        exact absurd hx (by decide)
      simp [hxx, hxX]
    rw [List.cons_append]
    rw [parseIntCore_of_digit_head d (ds' ++ sfx) hd, parseIntCore_of_digit_head d ds' hd]
    rw [parseUnsigned_of_nohex _ hnohex1, parseUnsigned_of_nohex _ hnohex2]
    unfold parseDigits
    have h1 := hTW.1
    rw [List.cons_append] at h1
    rw [h1, hTW.2]

/-- C10 (amended): for the three `/api/tasks/:id` handlers, an id parameter
on which `parseInt` yields `NaN` produces 404 `Task not found` without
touching the state; the handlers' behaviour is determined solely by
`parseInt` of the parameter (JS semantics: optional whitespace and sign, then
a leading decimal-digit run, or a hexadecimal literal after `0x`); and in
particular trailing non-digit characters after a digit run are ignored. -/
theorem task_id_param_semantics (s : ServerState) (uid : Nat) :
    (∀ idStr p now, parseIntJS idStr = none →
      getTaskById s uid idStr = ⟨404, some "Task not found", none⟩ ∧
      putTask s uid idStr p now = (⟨404, some "Task not found", none⟩, s) ∧
      deleteTask s uid idStr = (⟨404, some "Task not found"⟩, s)) ∧
    (∀ a b p now, parseIntJS a = parseIntJS b →
      getTaskById s uid a = getTaskById s uid b ∧
      putTask s uid a p now = putTask s uid b p now ∧
      deleteTask s uid a = deleteTask s uid b) ∧
    (∀ ds sfx, ds ≠ [] → (∀ ch ∈ ds, ch.isDigit = true) →
      (∀ ch, sfx.head? = some ch → ch.isDigit = false) →
      (∀ ch, ds = ['0'] → sfx.head? = some ch → (ch == 'x' || ch == 'X') = false) →
      parseIntJS (String.mk (ds ++ sfx)) = parseIntJS (String.mk ds)) := by
  refine ⟨?_, ?_, ?_⟩
  · intro idStr p now hnan
    have hl : lookupTask s idStr = none := by
      unfold lookupTask
      rw [hnan]
    exact ⟨by simp [getTaskById, hl], by simp [putTask, hl], by simp [deleteTask, hl]⟩
  · intro a b p now hab
    have hl : lookupTask s a = lookupTask s b := by
      unfold lookupTask
      rw [hab]
    refine ⟨?_, ?_, ?_⟩
    · unfold getTaskById
      rw [hl]
    · unfold putTask
      rw [hl]
    · unfold deleteTask
      rw [hl]
  · intro ds sfx hne hds hsfx hhex
    exact parseIntJS_append_nondigit ds sfx hne hds hsfx hhex

/-- Counterexample to C10 as stated: the parameter `+7` has no leading
integer digits, yet the handler finds task 7 (parseInt reads the sign) and
answers 200, not 404. -/
theorem task_id_param_counterexample :
    getTaskById ⟨[⟨7, 1, "a", "", "low", none, false, 0, 0⟩], [], 8, 1⟩ 1 "+7" =
      ⟨200, none, some ⟨7, 1, "a", "", "low", none, false, 0, 0⟩⟩ ∧
    (getTaskById ⟨[⟨7, 1, "a", "", "low", none, false, 0, 0⟩], [], 8, 1⟩ 1 "+7").status ≠ 404 := by
  decide

/-- Concrete check of `task_id_param_semantics`: an unparsable id gives 404
everywhere, `12abc` behaves like `12`, and the digit-run lemma applies to
`12` ++ `abc`. -/
theorem task_id_param_semantics_witness :
    parseIntJS "abc" = none ∧
    deleteTask ⟨[⟨1, 1, "a", "", "low", none, false, 0, 0⟩], [], 2, 1⟩ 1 "abc" =
      (⟨404, some "Task not found"⟩, ⟨[⟨1, 1, "a", "", "low", none, false, 0, 0⟩], [], 2, 1⟩) ∧
    parseIntJS "12abc" = parseIntJS "12" ∧
    getTaskById ⟨[⟨12, 1, "t", "", "low", none, false, 0, 0⟩], [], 13, 1⟩ 1 "12abc" =
      getTaskById ⟨[⟨12, 1, "t", "", "low", none, false, 0, 0⟩], [], 13, 1⟩ 1 "12" ∧
    parseIntJS (String.mk (['1', '2'] ++ ['a', 'b', 'c'])) = parseIntJS (String.mk ['1', '2']) :=
  ⟨by decide,
   ((task_id_param_semantics ⟨[⟨1, 1, "a", "", "low", none, false, 0, 0⟩], [], 2, 1⟩ 1).1
     "abc" ⟨none, none, none, none, none, none, none, none, none⟩ 0 (by decide)).2.2,
   by decide,
   ((task_id_param_semantics ⟨[⟨12, 1, "t", "", "low", none, false, 0, 0⟩], [], 13, 1⟩ 1).2.1
     "12abc" "12" ⟨none, none, none, none, none, none, none, none, none⟩ 0 (by decide)).1,
   (task_id_param_semantics ⟨[], [], 1, 1⟩ 1).2.2 ['1', '2'] ['a', 'b', 'c']
     (by decide) (by decide)
     (by
       intro ch hch
       simp only [List.head?_cons, Option.some.injEq] at hch
       subst hch
       decide)
     (by
       intro ch hcon
       exact absurd hcon (by decide))⟩

end TaskMgmt
